import Mathlib

/-!
# Profile Extraction & Candidate Ranking Engine — verification development

Shallow embedding of the CV parser (`src/services/parser.js`) and the
matcher (`src/services/matcher.js`).  Text is modelled as `List Char`
(JS strings), absent/`null`/`undefined` values as `Option`, and JS
numbers as `ℚ` (all score arithmetic in the source stays well within
exact double range, so rational arithmetic is faithful).
-/

namespace Jeager

/-- ASCII word character, JS regex `\w` = `[A-Za-z0-9_]`. -/
def isWordC (c : Char) : Bool := c.isAlpha || c.isDigit || c == '_'

/-- JS regex `\b` word boundary between an optional previous character and
the next character (`none` at the edges of the string). -/
def boundaryB (prev next : Option Char) : Bool :=
  (prev.elim false isWordC) != (next.elim false isWordC)

/-- Separator class `[-.\s]` used by the phone regexes. -/
def isSepC (c : Char) : Bool := c == '-' || c == '.' || c.isWhitespace

/-- Lowercase a character list; JS `toLowerCase` restricted to ASCII,
which is what every fixed vocabulary word in the source uses. -/
def lowerL (cs : List Char) : List Char := cs.map Char.toLower

/-- Lowercase a string. -/
def lowerS (s : String) : String := ⟨lowerL s.data⟩

/-- JS `hay.includes(needle)` substring test. -/
def containsSub (needle : List Char) : List Char → Bool
  | [] => needle.isEmpty
  | c :: rest => needle.isPrefixOf (c :: rest) || containsSub needle rest

/-- JS `text.split('\n')` (empty pieces are kept). -/
def splitLines : List Char → List (List Char)
  | [] => [[]]
  | c :: rest =>
    if c == '\n' then [] :: splitLines rest
    else
      match splitLines rest with
      | l :: ls => (c :: l) :: ls
      | [] => [[c]]

/-- JS `String.prototype.trim` (strip leading/trailing whitespace). -/
def trimL (cs : List Char) : List Char :=
  ((cs.dropWhile Char.isWhitespace).reverse.dropWhile Char.isWhitespace).reverse

/-- Rendering of an optional string field inside a JS template literal:
a missing field prints as the literal text `undefined`. -/
def jsStr : Option String → String
  | none => "undefined"
  | some s => s

/-- JS string truthiness: `null`/`undefined` and `""` are falsy. -/
def strTruthy : Option String → Bool
  | none => false
  | some s => !s.isEmpty

/-- `parseFloat(x.toFixed(2))`: round to two decimal places
(round half away from zero; all scores here are non-negative). -/
def round2 (q : ℚ) : ℚ := ((⌊q * 100 + 1/2⌋ : ℤ) : ℚ) / 100

/-- `matcher.js` reads `skills` entries as `{name, category}` records. -/
structure Skill where
  name : String
  category : String
deriving DecidableEq, Repr, Inhabited

/-- Contact block produced by `extractContactInfo` and read back by the
matcher as `cvData.personal`. -/
structure Personal where
  name : String
  email : Option String
  phone : Option String
  linkedin_url : Option String
  location : Option String
deriving DecidableEq, Repr, Inhabited

/-- One experience entry produced by `extractExperience`.  The year
tokens are stored by their numeric value (the JS code stores the digit
strings and re-parses them with `parseInt`). -/
structure Experience where
  job_title : String
  company : String
  location : Option String
  start_date : Nat
  end_date : Nat
  duration_months : ℤ
  description : String
deriving DecidableEq, Repr, Inhabited

/-- The `cvData` object consumed by the matcher.  Every field the
matcher dereferences behind `|| []` / `?.` is optional here. -/
structure CvData where
  personal : Option Personal
  skills : Option (List Skill)
  experience : Option (List Experience)
  industries : Option (List String)
deriving DecidableEq, Repr, Inhabited

/-- Candidate company record; all fields may be absent. -/
structure Company where
  name : Option String
  industry : Option String
  description : Option String
  location : Option String
  size : Option String
deriving DecidableEq, Repr, Inhabited

/-- Candidate person record; all fields may be absent. -/
structure Person where
  name : Option String
  headline : Option String
  current_company : Option String
  current_role : Option String
  location : Option String
  skills : Option (List String)
deriving DecidableEq, Repr, Inhabited

/-! ## Company scoring (`calculateCompanyMatchScore`), term by term -/

/-- `` `${company.name} ${company.description}`.toLowerCase() ``. -/
def companyText (company : Company) : List Char :=
  lowerL ((jsStr company.name) ++ " " ++ (jsStr company.description)).data

/-- The industry-match boolean of the 40% term:
`cvIndustries.some(ind => company.industry?.toLowerCase().includes(ind.toLowerCase()))`. -/
def companyIndustryMatch (company : Company) (cvData : CvData) : Bool :=
  (cvData.industries.getD []).any fun ind =>
    match company.industry with
    | none => false
    | some cind => containsSub (lowerL ind.data) (lowerL cind.data)

/-- Industry match term (40%). -/
def companyIndustryTerm (company : Company) (cvData : CvData) : ℚ :=
  if companyIndustryMatch company cvData then 4/10 else 0

/-- Lowercased CV skill names, `cvData.skills || []` mapped over `name`. -/
def cvSkillNamesLower (cvData : CvData) : List (List Char) :=
  (cvData.skills.getD []).map fun s => lowerL s.name.data

/-- `matchingSkills`: CV skills occurring in the company text. -/
def companyMatchingSkills (company : Company) (cvData : CvData) : List (List Char) :=
  (cvSkillNamesLower cvData).filter fun sk => containsSub sk (companyText company)

/-- Skills match term (30%):
`min(matchingSkills.length / max(cvSkills.length, 1), 1.0) * 0.3`. -/
def companySkillsTerm (company : Company) (cvData : CvData) : ℚ :=
  min (((companyMatchingSkills company cvData).length : ℚ)
        / ((max (cvSkillNamesLower cvData).length 1 : ℕ) : ℚ)) 1 * (3/10)

/-- `cvData.personal?.location`. -/
def cvLocation (cvData : CvData) : Option String :=
  cvData.personal.bind Personal.location

/-- `cvLocation && company.location?.includes(cvLocation)`. -/
def companyLocFullMatch (company : Company) (cvData : CvData) : Bool :=
  strTruthy (cvLocation cvData) &&
    (match company.location, cvLocation cvData with
     | some cl, some l => containsSub l.data cl.data
     | _, _ => false)

/-- Location match term (20% / 10%): full credit when the (truthy) CV
location occurs in the company location, partial credit when the
company merely has a truthy location. -/
def companyLocationTerm (company : Company) (cvData : CvData) : ℚ :=
  if companyLocFullMatch company cvData then 2/10
  else if strTruthy company.location then 1/10
  else 0

/-- `company.size && (company.size.includes('51-200') ||
company.size.includes('201-500'))`. -/
def companySizePreferred (company : Company) : Bool :=
  match company.size with
  | some s => containsSub "51-200".data s.data || containsSub "201-500".data s.data
  | none => false

/-- Size preference term (10%): mid-size buckets. -/
def companySizeTerm (company : Company) : ℚ :=
  if companySizePreferred company then 1/10 else 0

/-- `calculateCompanyMatchScore`. -/
def calculateCompanyMatchScore (company : Company) (cvData : CvData) : ℚ :=
  min (companyIndustryTerm company cvData + companySkillsTerm company cvData
       + companyLocationTerm company cvData + companySizeTerm company) 1

/-! ## Company rationale (`getCompanyMatchingCriteria`) -/

/-- Rationale object attached to a ranked company. -/
structure MatchingCriteria where
  matched_skills : List String
  matched_industries : List String
  location_match : Bool
  size_preference : Option String
  explanation : String
deriving DecidableEq, Repr, Inhabited

/-- `getCompanyMatchingCriteria`. -/
def getCompanyMatchingCriteria (company : Company) (cvData : CvData) : MatchingCriteria :=
  let cvSkills := (cvData.skills.getD []).map Skill.name
  let cvIndustries := cvData.industries.getD []
  let text := companyText company
  let matchedSkills := cvSkills.filter fun skill => containsSub (lowerL skill.data) text
  let matchedIndustries := cvIndustries.filter fun ind =>
    match company.industry with
    | none => false
    | some cind => containsSub (lowerL ind.data) (lowerL cind.data)
  { matched_skills := matchedSkills.take 5
    matched_industries := matchedIndustries
    location_match :=
      match company.location with
      | none => false
      | some cl => containsSub ((cvLocation cvData).getD "").data cl.data
    size_preference := company.size
    explanation :=
      "Matches " ++ toString matchedSkills.length
        ++ " of your key skills and operates in your target industry." }

/-! ## Person scoring (`calculateProfileMatchScore`), term by term -/

/-- `` `${profile.headline} ${profile.current_company}`.toLowerCase() ``. -/
def profileText (profile : Person) : List Char :=
  lowerL ((jsStr profile.headline) ++ " " ++ (jsStr profile.current_company)).data

/-- Lowercased candidate skill set, `(profile.skills || [])`. -/
def personSkillsLower (profile : Person) : List (List Char) :=
  (profile.skills.getD []).map fun s => lowerL s.data

/-- The lowercased CV skills also present in the candidate's skill set
(the list whose length is `sharedCount`). -/
def sharedSkillList (profile : Person) (cvData : CvData) : List (List Char) :=
  (cvSkillNamesLower cvData).filter fun skill => (personSkillsLower profile).contains skill

/-- Shared-skills term (40%):
`min(sharedCount / max(cvSkills.length, 1), 1.0) * 0.4`. -/
def profileSkillsTerm (profile : Person) (cvData : CvData) : ℚ :=
  min (((sharedSkillList profile cvData).length : ℚ)
        / ((max (cvSkillNamesLower cvData).length 1 : ℕ) : ℚ)) 1 * (4/10)

/-- The industry-match boolean of the 30% term. -/
def profileIndustryMatch (profile : Person) (cvData : CvData) : Bool :=
  ((cvData.industries.getD []).map fun i => lowerL i.data).any fun ind =>
    containsSub ind (profileText profile)

/-- Industry/interests term (30%). -/
def profileIndustryTerm (profile : Person) (cvData : CvData) : ℚ :=
  if profileIndustryMatch profile cvData then 3/10 else 0

/-- `/senior|lead|manager|director/i.test(profile.current_role || '')`. -/
def isSeniorRole (profile : Person) : Bool :=
  let role := lowerL (profile.current_role.getD "").data
  ["senior", "lead", "manager", "director"].any fun k => containsSub k.data role

/-- `cvData.experience?.length || 0`. -/
def cvExperienceCount (cvData : CvData) : Nat :=
  (cvData.experience.map List.length).getD 0

/-- Seniority alignment term (20% / 10%). -/
def profileSeniorityTerm (profile : Person) (cvData : CvData) : ℚ :=
  let cvExperience := cvExperienceCount cvData
  if cvExperience ≥ 5 && isSeniorRole profile then 2/10
  else if cvExperience < 5 && !isSeniorRole profile then 2/10
  else 1/10

/-- `cvLocation && profile.location?.includes(cvLocation)`. -/
def profileLocMatch (profile : Person) (cvData : CvData) : Bool :=
  strTruthy (cvLocation cvData) &&
    (match profile.location, cvLocation cvData with
     | some pl, some l => containsSub l.data pl.data
     | _, _ => false)

/-- Location term (10%). -/
def profileLocationTerm (profile : Person) (cvData : CvData) : ℚ :=
  if profileLocMatch profile cvData then 1/10 else 0

/-- `calculateProfileMatchScore`. -/
def calculateProfileMatchScore (profile : Person) (cvData : CvData) : ℚ :=
  min (profileSkillsTerm profile cvData + profileIndustryTerm profile cvData
       + profileSeniorityTerm profile cvData + profileLocationTerm profile cvData) 1

/-- `getSharedSkills` (lowercased CV skill names present in the
candidate's skill set, first 5). -/
def getSharedSkills (profile : Person) (cvData : CvData) : List (List Char) :=
  (sharedSkillList profile cvData).take 5

/-- `getSharedInterests` (CV industries, original case, whose lowercase
form occurs in the candidate's headline/company text). -/
def getSharedInterests (profile : Person) (cvData : CvData) : List String :=
  (cvData.industries.getD []).filter fun ind =>
    containsSub (lowerL ind.data) (profileText profile)

/-- `profile.name?.split(' ')[0]` rendered in a template literal. -/
def firstNameOf (profile : Person) : String :=
  match profile.name with
  | none => "undefined"
  | some s => (s.splitOn " ").headD ""

/-- `generateConversationStarter`. -/
def generateConversationStarter (profile : Person) (cvData : CvData) : String :=
  let sharedSkills := getSharedSkills profile cvData
  let sharedInterests := getSharedInterests profile cvData
  let fn := firstNameOf profile
  let role := jsStr profile.current_role
  let comp := jsStr profile.current_company
  if sharedSkills.length > 0 && sharedInterests.length > 0 then
    "Hi " ++ fn ++ ", I noticed we both have experience with "
      ++ String.mk (sharedSkills.headD []) ++ " and share an interest in "
      ++ (sharedInterests.headD "")
      ++ ". I'm currently exploring opportunities in this space and would love to hear about your journey to "
      ++ role ++ " at " ++ comp ++ "."
  else if sharedSkills.length > 0 then
    "Hi " ++ fn ++ ", I saw that we both work with " ++ String.mk (sharedSkills.headD [])
      ++ ". I'd love to learn more about how you use it in your role at " ++ comp ++ "."
  else if sharedInterests.length > 0 then
    "Hi " ++ fn ++ ", I'm interested in " ++ (sharedInterests.headD "")
      ++ " and noticed you're working in this field. Would you be open to a brief chat about your experience at "
      ++ comp ++ "?"
  else
    "Hi " ++ fn ++ ", I came across your profile and am impressed by your work at " ++ comp
      ++ ". I'd love to connect and learn more about your career path."

/-! ## Ranking (`rankCompanies` / `rankProfiles`)

JS `Array.prototype.sort` with comparator `(a, b) => b.match_score -
a.match_score` produces a list sorted non-increasingly by `match_score`
(a permutation of the input).  We realise that contract with an
insertion sort on the same key; the claims under verification only
concern the sortedness and the multiset of elements, both of which are
comparator-determined. -/

/-- Insert keeping scores non-increasing. -/
def insDesc {α : Type} (score : α → ℚ) (x : α) : List α → List α
  | [] => [x]
  | y :: ys => if score y ≤ score x then x :: y :: ys else y :: insDesc score x ys

/-- Sort by score, descending. -/
def sortDesc {α : Type} (score : α → ℚ) : List α → List α
  | [] => []
  | x :: xs => insDesc score x (sortDesc score xs)

/-- Company record extended with score and rationale. -/
structure RankedCompany where
  company : Company
  match_score : ℚ
  matching_criteria : MatchingCriteria
deriving DecidableEq, Repr, Inhabited

/-- `rankCompanies` (the `!companies || !cvData` guard modelled by the
`Option` arguments). -/
def rankCompanies (companies : Option (List Company)) (cvData : Option CvData) :
    List RankedCompany :=
  match companies, cvData with
  | some cs, some cv =>
    let ranked := cs.map fun company =>
      { company
        match_score := round2 (calculateCompanyMatchScore company cv)
        matching_criteria := getCompanyMatchingCriteria company cv }
    sortDesc RankedCompany.match_score ranked
  | _, _ => []

/-- Person record extended with score, shared attributes and starter. -/
structure RankedPerson where
  person : Person
  match_score : ℚ
  shared_skills : List (List Char)
  shared_interests : List String
  conversation_starter : String
deriving DecidableEq, Repr, Inhabited

/-- `rankProfiles`. -/
def rankProfiles (profiles : Option (List Person)) (cvData : Option CvData) :
    List RankedPerson :=
  match profiles, cvData with
  | some ps, some cv =>
    let ranked := ps.map fun profile =>
      { person := profile
        match_score := round2 (calculateProfileMatchScore profile cv)
        shared_skills := getSharedSkills profile cv
        shared_interests := getSharedInterests profile cv
        conversation_starter := generateConversationStarter profile cv }
    sortDesc RankedPerson.match_score ranked
  | _, _ => []

/-! ## Field extractor (`parser.js`) -/

/-- Fixed technical-skills vocabulary. -/
def TECHNICAL_SKILLS : List String :=
  ["javascript", "python", "java", "c++", "react", "vue", "angular", "node.js",
   "typescript", "go", "rust", "sql", "postgresql", "mongodb", "redis",
   "docker", "kubernetes", "aws", "azure", "gcp", "git", "ci/cd",
   "machine learning", "ai", "data science", "tensorflow", "pytorch"]

/-- Fixed soft-skills vocabulary. -/
def SOFT_SKILLS : List String :=
  ["leadership", "communication", "teamwork", "problem-solving",
   "critical thinking", "time management", "collaboration", "adaptability",
   "creativity", "emotional intelligence", "negotiation", "public speaking"]

/-- `SKILL_CATEGORIES` from `constants.js`. -/
def SKILL_CATEGORIES_TECHNICAL : String := "technical"

/-- `SKILL_CATEGORIES` from `constants.js`. -/
def SKILL_CATEGORIES_SOFT : String := "soft"

/-- `extractSkills`: substring test of each vocabulary word against the
lowercased text, technical skills first, in vocabulary order. -/
def extractSkills (text : List Char) : List Skill :=
  let textLower := lowerL text
  (TECHNICAL_SKILLS.filter fun sk => containsSub (lowerL sk.data) textLower).map
      (fun sk => { name := sk, category := SKILL_CATEGORIES_TECHNICAL })
    ++ (SOFT_SKILLS.filter fun sk => containsSub (lowerL sk.data) textLower).map
      (fun sk => { name := sk, category := SKILL_CATEGORIES_SOFT })

/-- Fixed industry list inside `extractIndustries`. -/
def commonIndustries : List String :=
  ["Technology", "Finance", "Healthcare", "Education", "Retail",
   "Manufacturing", "Consulting", "SaaS", "Fintech", "E-commerce"]

/-- `extractIndustries`. -/
def extractIndustries (text : List Char) : List String :=
  let textLower := lowerL text
  commonIndustries.filter fun industry => containsSub (lowerL industry.data) textLower

/-- Value of a digit character. -/
def digitVal (c : Char) : Nat := c.toNat - 48

/-- A match of `\b(19|20)\d{2}\b` starting exactly at the head of `cs`
(`prev` is the character just before, for the leading `\b`). -/
def yearAt (prev : Option Char) : List Char → Option Nat
  | a :: b :: c :: d :: rest =>
    if (!prev.elim false isWordC)
        && ((a == '1' && b == '9') || (a == '2' && b == '0'))
        && c.isDigit && d.isDigit
        && (!(rest.head?.elim false isWordC)) then
      some (digitVal a * 1000 + digitVal b * 100 + digitVal c * 10 + digitVal d)
    else none
  | _ => none

/-- All matches of the global regex `/\b(19|20)\d{2}\b/g` in a line, in
order, as numeric year values.  We scan every position; this agrees
with the non-overlapping JS `lastIndex` semantics because a successful
match is followed by three digit characters at which the leading `\b`
of any overlapping later attempt fails. -/
def findYearsGo : Option Char → List Char → List Nat
  | _, [] => []
  | prev, c :: rest =>
    match yearAt prev (c :: rest) with
    | some y => y :: findYearsGo (some c) rest
    | none => findYearsGo (some c) rest

/-- `line.match(/\b(19|20)\d{2}\b/g)` as year values. -/
def findYears (line : List Char) : List Nat := findYearsGo none line

/-- `calculateMonths` (`parseInt` on both year strings). -/
def calculateMonths (startYear endYear : Nat) : ℤ :=
  ((endYear : ℤ) - (startYear : ℤ)) * 12

/-- `line.split(/\d{4}/)[0]`: the prefix of the line before the first
run of four consecutive digits (the whole line when there is none). -/
def beforeFourDigits : List Char → List Char
  | [] => []
  | c :: rest =>
    match c :: rest with
    | a :: b :: c' :: d :: _ =>
      if a.isDigit && b.isDigit && c'.isDigit && d.isDigit then []
      else c :: beforeFourDigits rest
    | _ => c :: beforeFourDigits rest

/-- The experience entry built from a qualifying line (`years` is
non-empty there); `nextLine` is `lines[i + 1]`. -/
def mkExperience (line : List Char) (years : List Nat) (nextLine : Option (List Char)) :
    Experience :=
  let title := trimL (beforeFourDigits line)
  { job_title := if title.isEmpty then "Position" else ⟨title⟩
    company := "Company"
    location := none
    start_date := years.headD 0
    end_date := years.getLastD 0
    duration_months := calculateMonths (years.headD 0) (years.getLastD 0)
    description := ⟨(nextLine.map trimL).getD []⟩ }

/-- The per-line loop of `extractExperience`, before the final
`slice(0, 5)`. -/
def experienceEntries : List (List Char) → List Experience
  | [] => []
  | line :: rest =>
    let years := findYears line
    if years.isEmpty then experienceEntries rest
    else mkExperience line years rest.head? :: experienceEntries rest

/-- `extractExperience`. -/
def extractExperience (text : List Char) : List Experience :=
  (experienceEntries (splitLines text)).take 5

/-- Education entry produced by `extractEducation`. -/
structure Education where
  degree : String
  institution : String
  graduation_year : Option Nat
deriving DecidableEq, Repr, Inhabited

/-- Degree keywords of `extractEducation`. -/
def degreeKeywords : List String :=
  ["bachelor", "master", "phd", "mba", "b.s.", "m.s.", "b.a.", "m.a."]

/-- First match of `/\b(19|20)\d{2}\b/` on a line, as a year value. -/
def firstYear (line : List Char) : Option Nat := (findYears line).head?

/-- The per-line loop of `extractEducation`, before `slice(0, 3)`. -/
def educationEntries : List (List Char) → List Education
  | [] => []
  | line :: rest =>
    let lineLower := lowerL line
    if degreeKeywords.any (fun k => containsSub k.data lineLower) then
      { degree := ⟨trimL line⟩
        institution :=
          match rest.head? with
          | some next => let t := trimL next; if t.isEmpty then "University" else ⟨t⟩
          | none => "University"
        graduation_year := firstYear line } :: educationEntries rest
    else educationEntries rest

/-- `extractEducation`. -/
def extractEducation (text : List Char) : List Education :=
  (educationEntries (splitLines text)).take 3

/-- Join lines with single spaces and trim, JS `join(' ').trim()`. -/
def joinTrim (picked : List (List Char)) : String :=
  ⟨trimL (String.intercalate " " (picked.map String.mk)).data⟩

/-- The keyword scan of `extractSummary`: the 2–3 lines after the first
line containing a summary-section keyword. -/
def summaryScan : List (List Char) → Option (List (List Char))
  | [] => none
  | line :: rest =>
    if ["summary", "objective", "profile", "about"].any
        (fun k => containsSub k.data (lowerL line)) then
      some (rest.take 3)
    else summaryScan rest

/-- `extractSummary`. -/
def extractSummary (text : List Char) : String :=
  let lines := splitLines text
  match summaryScan lines with
  | some picked => joinTrim picked
  | none => joinTrim ((lines.drop 1).take 3)

/-- The keyword scan of `extractCareerGoals`. -/
def careerGoalScan : List (List Char) → String
  | [] => "Seeking new opportunities"
  | line :: rest =>
    if ["seeking", "looking for", "interested in", "goal", "objective"].any
        (fun k => containsSub k.data (lowerL line)) then
      ⟨trimL line⟩
    else careerGoalScan rest

/-- `extractCareerGoals`. -/
def extractCareerGoals (text : List Char) : String :=
  careerGoalScan (splitLines text)

/-! ## Regex matchers used by `extractContactInfo` and
`calculateAccuracyScore`, compiled pattern by pattern with JS
leftmost-first, greedy-with-backtracking semantics. -/

/-- Length of the maximal run of class characters at the head. -/
def runLen (p : Char → Bool) : List Char → Nat
  | [] => 0
  | c :: rest => if p c then runLen p rest + 1 else 0

/-- Consume exactly `n` digit characters. -/
def digitsN : Nat → List Char → Option (List Char)
  | 0, cs => some cs
  | n + 1, c :: rest => if c.isDigit then digitsN n rest else none
  | _ + 1, [] => none

/-- Greedy optional single character (`X?`): remainders in preference
order, consuming first. -/
def altOpt (p : Char → Bool) (cs : List Char) : List (List Char) :=
  match cs with
  | c :: rest => if p c then [rest, cs] else [cs]
  | [] => [[]]

/-- Greedy `\d{1,3}`: remainders in preference order. -/
def digits13 (cs : List Char) : List (List Char) :=
  [digitsN 3 cs, digitsN 2 cs, digitsN 1 cs].filterMap id

/-- Remainders after the optional group `(\+?\d{1,3}[-.\s]?)?` of the
contact phone regex, in greedy preference order (group absent last). -/
def phoneGroupAlts (cs : List Char) : List (List Char) :=
  ((altOpt (· == '+') cs).flatMap fun r1 =>
    (digits13 r1).flatMap fun r2 => altOpt isSepC r2) ++ [cs]

/-- Remainders after a full match of
`(\+?\d{1,3}[-.\s]?)?\(?\d{3}\)?[-.\s]?\d{3}[-.\s]?\d{4}` at the head,
in greedy preference order. -/
def phoneTails (cs : List Char) : List (List Char) :=
  (phoneGroupAlts cs).flatMap fun r1 =>
  (altOpt (· == '(') r1).flatMap fun r2 =>
  (digitsN 3 r2).toList.flatMap fun r3 =>
  (altOpt (· == ')') r3).flatMap fun r4 =>
  (altOpt isSepC r4).flatMap fun r5 =>
  (digitsN 3 r5).toList.flatMap fun r6 =>
  (altOpt isSepC r6).flatMap fun r7 =>
  (digitsN 4 r7).toList

/-- Length of the contact phone regex match at the head, if any. -/
def matchPhoneAt (cs : List Char) : Option Nat :=
  (phoneTails cs).head?.map fun r => cs.length - r.length

/-- Leftmost match of the contact phone regex in the text. -/
def scanPhone : List Char → Option (List Char)
  | [] => none
  | c :: rest =>
    match matchPhoneAt (c :: rest) with
    | some n => some ((c :: rest).take n)
    | none => scanPhone rest

/-- Local-part class `[A-Za-z0-9._%+-]` of the email regex. -/
def emailLocalC (c : Char) : Bool :=
  c.isAlpha || c.isDigit || c == '.' || c == '_' || c == '%' || c == '+' || c == '-'

/-- Domain class `[A-Za-z0-9.-]` of the email regex. -/
def emailDomainC (c : Char) : Bool := c.isAlpha || c.isDigit || c == '.' || c == '-'

/-- Terminal class `[A-Z|a-z]` of the email regex (the `|` is a literal
member of the character class in the source pattern). -/
def emailTldC (c : Char) : Bool := c.isAlpha || c == '|'

/-- Greedy `[A-Z|a-z]\x7b2,\x7d\b`: try a match of length `k`, then
backtrack down to length 2. -/
def tldTry (cs : List Char) : Nat → Option Nat
  | 0 => none
  | 1 => none
  | k + 2 =>
    if boundaryB ((cs.take (k + 2)).getLast?) (cs.drop (k + 2)).head? then some (k + 2)
    else tldTry cs (k + 1)

/-- Match `[A-Z|a-z]\x7b2,\x7d\b` at the head. -/
def emailTldAt (cs : List Char) : Option Nat :=
  tldTry cs (runLen emailTldC cs)

/-- Backtracking search for `[A-Za-z0-9.-]+\.[A-Z|a-z]\x7b2,\x7d\b` at the
head: `m + 1` domain characters, then a literal dot, then the terminal
part.  Tried from the greedy split downwards. -/
def domainTry (afterAt : List Char) : Nat → Option Nat
  | 0 => none
  | m + 1 =>
    match (afterAt.drop (m + 1)).head? with
    | some '.' =>
      (match emailTldAt (afterAt.drop (m + 2)) with
       | some k => some ((m + 1) + 1 + k)
       | none => domainTry afterAt m)
    | _ => domainTry afterAt m

/-- The part of the email regex after the `@`:
`[A-Za-z0-9.-]+\.[A-Z|a-z]\x7b2,\x7d\b` at the head. -/
def emailDomainAt (afterAt : List Char) : Option Nat :=
  domainTry afterAt (runLen emailDomainC afterAt - 1)

/-- Length of an email-regex match starting exactly at the head
(`\b[A-Za-z0-9._%+-]+@[A-Za-z0-9.-]+\.[A-Z|a-z]\x7b2,\x7d\b`). -/
def matchEmailAt (prev : Option Char) (cs : List Char) : Option Nat :=
  if !boundaryB prev cs.head? then none
  else
    let l := runLen emailLocalC cs
    if l == 0 then none
    else
      match (cs.drop l).head? with
      | some '@' =>
        (match emailDomainAt (cs.drop (l + 1)) with
         | some d => some (l + 1 + d)
         | none => none)
      | _ => none

/-- Leftmost email-regex match in the text. -/
def scanEmail : Option Char → List Char → Option (List Char)
  | _, [] => none
  | prev, c :: rest =>
    match matchEmailAt prev (c :: rest) with
    | some n => some ((c :: rest).take n)
    | none => scanEmail (some c) rest

/-- Identifier class `[A-Za-z0-9-]` of the LinkedIn regex. -/
def linkedinIdC (c : Char) : Bool := c.isAlpha || c.isDigit || c == '-'

/-- Length of a match of `/linkedin\.com\/in\/[A-Za-z0-9-]+/i` at the
head. -/
def matchLinkedinAt (cs : List Char) : Option Nat :=
  if lowerL (cs.take 16) == "linkedin.com/in/".data then
    let r := runLen linkedinIdC (cs.drop 16)
    if r == 0 then none else some (16 + r)
  else none

/-- Leftmost LinkedIn-regex match in the text. -/
def scanLinkedin : List Char → Option (List Char)
  | [] => none
  | c :: rest =>
    match matchLinkedinAt (c :: rest) with
    | some n => some ((c :: rest).take n)
    | none => scanLinkedin rest

/-- `extractContactInfo`; the `location` field is unconditionally
`null` in the source (`// Could enhance with location extraction`). -/
def extractContactInfo (text : List Char) : Personal :=
  let lines := (splitLines text).filter fun l => (trimL l).length > 0
  { name :=
      match lines.head? with
      | some l => let t := trimL l; if t.isEmpty then "Unknown" else ⟨t⟩
      | none => "Unknown"
    email := (scanEmail none text).map String.mk
    phone := (scanPhone text).map String.mk
    linkedin_url := (scanLinkedin text).map fun m => "https://" ++ String.mk m
    location := none }

/-! ## Accuracy score (`calculateAccuracyScore`) -/

/-- Existence test for `/\d{3}[-.\s]?\d{3}[-.\s]?\d{4}/` at the head. -/
def phoneSimpleAt (cs : List Char) : Bool :=
  !((digitsN 3 cs).toList.flatMap fun r1 =>
    (altOpt isSepC r1).flatMap fun r2 =>
    (digitsN 3 r2).toList.flatMap fun r3 =>
    (altOpt isSepC r3).flatMap fun r4 =>
    (digitsN 4 r4).toList).isEmpty

/-- `.test` of the accuracy phone regex. -/
def hasPhoneSimple : List Char → Bool
  | [] => false
  | c :: rest => phoneSimpleAt (c :: rest) || hasPhoneSimple rest

/-- `(19|20)\d{2}` (no word boundaries) at the head. -/
def yearLooseAt : List Char → Bool
  | a :: b :: c :: d :: _ =>
    ((a == '1' && b == '9') || (a == '2' && b == '0')) && c.isDigit && d.isDigit
  | _ => false

/-- `.test` of `/(19|20)\d{2}/`. -/
def hasYearLoose : List Char → Bool
  | [] => false
  | c :: rest => yearLooseAt (c :: rest) || hasYearLoose rest

/-- The five boolean checks of `calculateAccuracyScore`, in source
order: `@`, phone pattern, `linkedin.com`, year digits, and the degree
alternation `/bachelor|master|phd/i`. -/
def accuracyChecks (text : List Char) : List Bool :=
  [containsSub ['@'] text,
   hasPhoneSimple text,
   containsSub "linkedin.com".data (lowerL text),
   hasYearLoose text,
   ["bachelor", "master", "phd"].any fun k => containsSub k.data (lowerL text)]

/-- `calculateAccuracyScore`. -/
def calculateAccuracyScore (text : List Char) : ℚ :=
  let checks := accuracyChecks text
  let score : ℚ := ((checks.filter id).length : ℚ) / (checks.length : ℚ)
  min (score + 2/10) 1

/-! ## The `extractedData` record built by `parseCV` -/

/-- The structured-profile record assembled by `parseCV` from the
per-field extractors. -/
structure ExtractedData where
  personal : Personal
  summary : String
  skills : List Skill
  experience : List Experience
  education : List Education
  industries : List String
  career_goals : String
  accuracy_score : ℚ
deriving DecidableEq, Repr, Inhabited

/-- The field-extraction stage of `parseCV` on a text blob. -/
def extractData (text : List Char) : ExtractedData :=
  { personal := extractContactInfo text
    summary := extractSummary text
    skills := extractSkills text
    experience := extractExperience text
    education := extractEducation text
    industries := extractIndustries text
    career_goals := extractCareerGoals text
    accuracy_score := calculateAccuracyScore text }

/-- The extracted record as the matcher's `cvData` argument (every
field present). -/
def cvDataOf (d : ExtractedData) : CvData :=
  { personal := some d.personal
    skills := some d.skills
    experience := some d.experience
    industries := some d.industries }

/-! ## Concrete records used by the scenario claims and witnesses -/

/-- The candidate company of the TechCorp scenario (§8 of the spec). -/
def tcCompany : Company :=
  { name := some "TechCorp", industry := some "Technology",
    description := some "uses Python and AWS", location := some "SF",
    size := some "51-200" }

/-- The profile of the TechCorp scenario. -/
def tcCv : CvData :=
  { personal := none
    skills := some [⟨"Python", "technical"⟩, ⟨"AWS", "technical"⟩]
    experience := none
    industries := some ["Technology"] }

/-- A throwaway experience entry (used to build concrete profiles). -/
def dummyExperience : Experience :=
  { job_title := "Position", company := "Company", location := none,
    start_date := 2020, end_date := 2020, duration_months := 0, description := "" }

/-- Candidate person of the Kubernetes scenario. -/
def kPerson : Person :=
  { name := some "Ada Sample", headline := none, current_company := some "K8sCo",
    current_role := some "Senior Engineer", location := none,
    skills := some ["Kubernetes", "Docker"] }

/-- Profile of the Kubernetes scenario: one skill, five experience
entries. -/
def kCv : CvData :=
  { personal := none
    skills := some [⟨"Kubernetes", "technical"⟩]
    experience := some (List.replicate 5 dummyExperience)
    industries := none }

/-- A candidate company with every field absent. -/
def undefCompany : Company :=
  { name := none, industry := none, description := none, location := none, size := none }

/-- A candidate person with every field absent. -/
def undefPerson : Person :=
  { name := none, headline := none, current_company := none, current_role := none,
    location := none, skills := none }

/-- A profile whose only skill is literally named `undefined`. -/
def undefSkillCv : CvData :=
  { personal := none, skills := some [⟨"undefined", "technical"⟩],
    experience := none, industries := none }

/-- A profile with no populated fields. -/
def emptyCv : CvData :=
  { personal := none, skills := none, experience := none, industries := none }

/-- A candidate company whose location is present but empty. -/
def emptyLocCompany : Company :=
  { name := none, industry := none, description := none, location := some "",
    size := none }

/-- The degree-keyword signal as C3 states it: `bachelor`, `master`,
`phd`, `mba` and their abbreviated forms (the keyword list of
`extractEducation`).  Spec-side definition, for comparison with the
code's check. -/
def claimDegreeSignal (text : List Char) : Bool :=
  degreeKeywords.any fun k => containsSub k.data (lowerL text)

/-- The accuracy formula as C3 states it:
`min(count_true / 5 + 0.2, 1.0)` over the five signals, with the
degree signal of the claim. -/
def claimAccuracyScore (text : List Char) : ℚ :=
  let countTrue : ℕ :=
    (containsSub ['@'] text).toNat + (hasPhoneSimple text).toNat
      + (containsSub "linkedin.com".data (lowerL text)).toNat
      + (hasYearLoose text).toNat + (claimDegreeSignal text).toNat
  min ((countTrue : ℚ)/5 + 2/10) 1

/-- The same formula with the degree signal the code actually uses:
the alternation `bachelor|master|phd` only. -/
def amendedAccuracyScore (text : List Char) : ℚ :=
  let countTrue : ℕ :=
    (containsSub ['@'] text).toNat + (hasPhoneSimple text).toNat
      + (containsSub "linkedin.com".data (lowerL text)).toNat
      + (hasYearLoose text).toNat
      + (["bachelor", "master", "phd"].any fun k => containsSub k.data (lowerL text)).toNat
  min ((countTrue : ℚ)/5 + 2/10) 1

/-- Concrete text for the C6 witness. -/
def c6text : List Char := "Engineer 2019 2022\nBuilt APIs".data

/-- A candidate company whose only populated field is a non-empty
location. -/
def sfCompany : Company :=
  { name := none, industry := none, description := none, location := some "SF",
    size := none }

/-! ## Helper lemmas: insertion sort -/

theorem mem_insDesc {α : Type} (score : α → ℚ) (x a : α) :
    ∀ l : List α, a ∈ insDesc score x l ↔ a = x ∨ a ∈ l
  | [] => by simp [insDesc]
  | y :: ys => by
    unfold insDesc
    by_cases hc : score y ≤ score x
    · rw [if_pos hc]
      simp [List.mem_cons]
    · rw [if_neg hc]
      simp [List.mem_cons, mem_insDesc score x a ys]
      tauto

theorem mem_sortDesc {α : Type} (score : α → ℚ) (a : α) :
    ∀ l : List α, a ∈ sortDesc score l ↔ a ∈ l
  | [] => by simp [sortDesc]
  | x :: xs => by
    unfold sortDesc
    rw [mem_insDesc, mem_sortDesc score a xs]
    simp [List.mem_cons]

theorem pairwise_insDesc {α : Type} (score : α → ℚ) (x : α) :
    ∀ l : List α, l.Pairwise (fun a b => score b ≤ score a) →
      (insDesc score x l).Pairwise (fun a b => score b ≤ score a)
  | [], _ => by simp [insDesc]
  | y :: ys, h => by
    rw [List.pairwise_cons] at h
    obtain ⟨hy, hys⟩ := h
    unfold insDesc
    by_cases hc : score y ≤ score x
    · rw [if_pos hc]
      refine List.Pairwise.cons ?_ (List.Pairwise.cons hy hys)
      intro b hb
      rcases List.mem_cons.mp hb with rfl | hb
      · exact hc
      · exact (hy b hb).trans hc
    · rw [if_neg hc]
      refine List.Pairwise.cons ?_ (pairwise_insDesc score x ys hys)
      intro b hb
      rcases (mem_insDesc score x b ys).mp hb with rfl | hb
      · exact (not_le.mp hc).le
      · exact hy b hb

theorem pairwise_sortDesc {α : Type} (score : α → ℚ) :
    ∀ l : List α, (sortDesc score l).Pairwise (fun a b => score b ≤ score a)
  | [] => by simp [sortDesc]
  | x :: xs => pairwise_insDesc score x _ (pairwise_sortDesc score xs)

/-! ## Helper lemmas: score bounds -/

theorem ratio_nonneg (a b : ℕ) : 0 ≤ min ((a : ℚ) / ((max b 1 : ℕ) : ℚ)) 1 :=
  le_min (div_nonneg (Nat.cast_nonneg a) (Nat.cast_nonneg _)) zero_le_one

theorem companyIndustryTerm_nonneg (c : Company) (cv : CvData) :
    0 ≤ companyIndustryTerm c cv := by
  simp only [companyIndustryTerm]
  split <;> norm_num

theorem companySkillsTerm_nonneg (c : Company) (cv : CvData) :
    0 ≤ companySkillsTerm c cv := by
  simp only [companySkillsTerm]
  have := ratio_nonneg (companyMatchingSkills c cv).length (cvSkillNamesLower cv).length
  nlinarith

theorem companyLocationTerm_nonneg (c : Company) (cv : CvData) :
    0 ≤ companyLocationTerm c cv := by
  simp only [companyLocationTerm]
  split <;> [norm_num; split <;> norm_num]

theorem companySizeTerm_nonneg (c : Company) : 0 ≤ companySizeTerm c := by
  simp only [companySizeTerm]
  split <;> norm_num

/-- The head of a non-empty list is a member. -/
theorem headD_mem {α : Type} [Inhabited α] {l : List α} (h : l ≠ []) :
    l.headD default ∈ l := by
  cases l with
  | nil => exact absurd rfl h
  | cons x xs => simp

theorem companyScore_bounds (c : Company) (cv : CvData) :
    0 ≤ calculateCompanyMatchScore c cv ∧ calculateCompanyMatchScore c cv ≤ 1 := by
  unfold calculateCompanyMatchScore
  refine ⟨le_min ?_ zero_le_one, min_le_right _ _⟩
  have h1 := companyIndustryTerm_nonneg c cv
  have h2 := companySkillsTerm_nonneg c cv
  have h3 := companyLocationTerm_nonneg c cv
  have h4 := companySizeTerm_nonneg c
  linarith

theorem profileSkillsTerm_nonneg (p : Person) (cv : CvData) :
    0 ≤ profileSkillsTerm p cv := by
  simp only [profileSkillsTerm]
  have := ratio_nonneg (sharedSkillList p cv).length (cvSkillNamesLower cv).length
  nlinarith

theorem profileIndustryTerm_nonneg (p : Person) (cv : CvData) :
    0 ≤ profileIndustryTerm p cv := by
  simp only [profileIndustryTerm]
  split <;> norm_num

theorem profileSeniorityTerm_nonneg (p : Person) (cv : CvData) :
    0 ≤ profileSeniorityTerm p cv := by
  simp only [profileSeniorityTerm]
  split <;> [norm_num; split <;> norm_num]

theorem profileLocationTerm_nonneg (p : Person) (cv : CvData) :
    0 ≤ profileLocationTerm p cv := by
  simp only [profileLocationTerm]
  split <;> norm_num

theorem profileScore_bounds (p : Person) (cv : CvData) :
    0 ≤ calculateProfileMatchScore p cv ∧ calculateProfileMatchScore p cv ≤ 1 := by
  unfold calculateProfileMatchScore
  refine ⟨le_min ?_ zero_le_one, min_le_right _ _⟩
  have h1 := profileSkillsTerm_nonneg p cv
  have h2 := profileIndustryTerm_nonneg p cv
  have h3 := profileSeniorityTerm_nonneg p cv
  have h4 := profileLocationTerm_nonneg p cv
  linarith

theorem round2_bounds {q : ℚ} (h0 : 0 ≤ q) (h1 : q ≤ 1) :
    0 ≤ round2 q ∧ round2 q ≤ 1 := by
  unfold round2
  constructor
  · have hf : (0 : ℤ) ≤ ⌊q * 100 + 1/2⌋ := Int.floor_nonneg.mpr (by linarith)
    have : (0 : ℚ) ≤ (⌊q * 100 + 1/2⌋ : ℚ) := by exact_mod_cast hf
    linarith
  · have hf : ⌊q * 100 + 1/2⌋ ≤ ⌊(201 : ℚ)/2⌋ := Int.floor_le_floor (by linarith)
    have h100 : ⌊(201 : ℚ)/2⌋ = 100 := by
      rw [Int.floor_eq_iff]
      norm_num
    rw [h100] at hf
    have : (⌊q * 100 + 1/2⌋ : ℚ) ≤ 100 := by exact_mod_cast hf
    linarith

/-! ## Claim theorems -/

/-- C1: for every profile object and every list of candidate companies
or candidate persons, every `match_score` in the output of
`rankCompanies` and `rankProfiles` satisfies `0 ≤ match_score ≤ 1`. -/
theorem C1_match_score_bounded (ocs : Option (List Company)) (ops : Option (List Person))
    (ocv : Option CvData) (r : RankedCompany) (s : RankedPerson) :
    (r ∈ rankCompanies ocs ocv → 0 ≤ r.match_score ∧ r.match_score ≤ 1) ∧
    (s ∈ rankProfiles ops ocv → 0 ≤ s.match_score ∧ s.match_score ≤ 1) := by
  constructor
  · intro hr
    match ocs, ocv with
    | none, _ => simp [rankCompanies] at hr
    | some cs, none => simp [rankCompanies] at hr
    | some cs, some cv =>
      rw [rankCompanies, mem_sortDesc] at hr
      obtain ⟨c, _, rfl⟩ := List.mem_map.mp hr
      obtain ⟨h0, h1⟩ := companyScore_bounds c cv
      exact round2_bounds h0 h1
  · intro hs
    match ops, ocv with
    | none, _ => simp [rankProfiles] at hs
    | some ps, none => simp [rankProfiles] at hs
    | some ps, some cv =>
      rw [rankProfiles, mem_sortDesc] at hs
      obtain ⟨p, _, rfl⟩ := List.mem_map.mp hs
      obtain ⟨h0, h1⟩ := profileScore_bounds p cv
      exact round2_bounds h0 h1

/-- C1 witness: the bound evaluated on the one-element TechCorp and
Kubernetes candidate lists. -/
theorem C1_match_score_bounded_witness :
    (0 ≤ ((rankCompanies (some [tcCompany]) (some tcCv)).headD default).match_score ∧
      ((rankCompanies (some [tcCompany]) (some tcCv)).headD default).match_score ≤ 1) ∧
    (0 ≤ ((rankProfiles (some [kPerson]) (some kCv)).headD default).match_score ∧
      ((rankProfiles (some [kPerson]) (some kCv)).headD default).match_score ≤ 1) :=
  ⟨(C1_match_score_bounded (some [tcCompany]) (some [kPerson]) (some tcCv)
      ((rankCompanies (some [tcCompany]) (some tcCv)).headD default)
      ((rankProfiles (some [kPerson]) (some kCv)).headD default)).1
      (headD_mem (by simp [rankCompanies, sortDesc, insDesc])),
   (C1_match_score_bounded (some [tcCompany]) (some [kPerson]) (some kCv)
      ((rankCompanies (some [tcCompany]) (some tcCv)).headD default)
      ((rankProfiles (some [kPerson]) (some kCv)).headD default)).2
      (headD_mem (by simp [rankProfiles, sortDesc, insDesc]))⟩

/-- C2: the outputs of `rankCompanies` and `rankProfiles` are sorted in
non-increasing order of `match_score`. -/
theorem C2_ranking_sorted (ocs : Option (List Company)) (ops : Option (List Person))
    (ocv : Option CvData) :
    (rankCompanies ocs ocv).Pairwise (fun a b => b.match_score ≤ a.match_score) ∧
    (rankProfiles ops ocv).Pairwise (fun a b => b.match_score ≤ a.match_score) := by
  constructor
  · match ocs, ocv with
    | none, _ => simp [rankCompanies]
    | some cs, none => simp [rankCompanies]
    | some cs, some cv => exact pairwise_sortDesc _ _
  · match ops, ocv with
    | none, _ => simp [rankProfiles]
    | some ps, none => simp [rankProfiles]
    | some ps, some cv => exact pairwise_sortDesc _ _

/-- C4: the TechCorp scenario scores exactly 0.9
(0.4 industry + 0.3 skills + 0.1 location-present + 0.1 size). -/
theorem C4_techcorp_scenario :
    (rankCompanies (some [tcCompany]) (some tcCv)).map RankedCompany.match_score
      = [9/10] := by
  have hscore : calculateCompanyMatchScore tcCompany tcCv = 9/10 := by
    unfold calculateCompanyMatchScore companyIndustryTerm companySkillsTerm
      companyLocationTerm companySizeTerm
    norm_num [show companyIndustryMatch tcCompany tcCv = true from by decide,
      show (companyMatchingSkills tcCompany tcCv).length = 2 from by decide,
      show (cvSkillNamesLower tcCv).length = 2 from by decide,
      show companyLocFullMatch tcCompany tcCv = false from by decide,
      show strTruthy tcCompany.location = true from by decide,
      show companySizePreferred tcCompany = true from by decide]
  have hr : round2 (9/10) = 9/10 := by norm_num [round2]
  simp [rankCompanies, sortDesc, insDesc, hscore, hr]

/-- C3 counterexample: on the text `mba` the claim's formula counts the
degree signal (score 0.4) but the code's degree check
`/bachelor|master|phd/i` does not match, so the code returns 0.2. -/
theorem C3_counterexample :
    calculateAccuracyScore "mba".data ≠ claimAccuracyScore "mba".data := by
  have h1 : calculateAccuracyScore "mba".data = 1/5 := by
    unfold calculateAccuracyScore
    norm_num [show ((accuracyChecks "mba".data).filter id).length = 0 from by decide,
      show (accuracyChecks "mba".data).length = 5 from by decide]
  have h2 : claimAccuracyScore "mba".data = 2/5 := by
    unfold claimAccuracyScore
    norm_num [show containsSub ['@'] "mba".data = false from by decide,
      show hasPhoneSimple "mba".data = false from by decide,
      show containsSub "linkedin.com".data (lowerL "mba".data) = false from by decide,
      show hasYearLoose "mba".data = false from by decide,
      show claimDegreeSignal "mba".data = true from by decide]
  rw [h1, h2]
  norm_num

/-- C3 (amended): the extracted accuracy score equals
`min(count_true / 5 + 0.2, 1.0)` over the five signals of the claim,
except that the degree signal is the alternation
`bachelor|master|phd` only (no `mba`, no abbreviated forms). -/
theorem C3_accuracy_formula (text : List Char) :
    calculateAccuracyScore text = amendedAccuracyScore text := by
  unfold calculateAccuracyScore amendedAccuracyScore accuracyChecks
  cases h1 : containsSub ['@'] text <;> cases h2 : hasPhoneSimple text <;>
    cases h3 : containsSub "linkedin.com".data (lowerL text) <;>
    cases h4 : hasYearLoose text <;>
    cases h5 : ["bachelor", "master", "phd"].any fun k => containsSub k.data (lowerL text) <;>
    simp [List.filter, id]

/-- C5: for a profile whose only skill is Kubernetes with ≥ 5
experience entries and a candidate person whose skill set contains
Kubernetes and Docker with title `Senior Engineer`, the shared-skills
term is the full 0.4 and the seniority term the full 0.2; in general
the seniority term is 0.2 exactly when experience ≥ 5 matches a
senior-indicator title, or experience < 5 matches a non-senior title,
and 0.1 otherwise. -/
theorem C5_kubernetes_and_seniority (cv cv' : CvData) (p p' : Person) (cat : String)
    (sk : List String) (es : List Experience)
    (hsk : cv.skills = some [⟨"Kubernetes", cat⟩])
    (hex : cv.experience = some es) (hlen : 5 ≤ es.length)
    (hps : p.skills = some sk) (hkube : "Kubernetes" ∈ sk) (hdock : "Docker" ∈ sk)
    (hrole : p.current_role = some "Senior Engineer") :
    profileSkillsTerm p cv = 4/10 ∧ profileSeniorityTerm p cv = 2/10 ∧
    profileSeniorityTerm p' cv' =
      (if (5 ≤ cvExperienceCount cv' ∧ isSeniorRole p' = true)
          ∨ (cvExperienceCount cv' < 5 ∧ ¬ isSeniorRole p' = true)
       then 2/10 else 1/10) := by
  have hnames : cvSkillNamesLower cv = [lowerL "Kubernetes".data] := by
    simp [cvSkillNamesLower, hsk]
  have hmem : lowerL "Kubernetes".data ∈ personSkillsLower p := by
    simp only [personSkillsLower, hps, Option.getD_some]
    exact List.mem_map.mpr ⟨"Kubernetes", hkube, rfl⟩
  have hcont : (personSkillsLower p).contains (lowerL "Kubernetes".data) = true :=
    List.elem_iff.mpr hmem
  have hsen : isSeniorRole p = true := by
    unfold isSeniorRole
    rw [hrole]
    decide
  refine ⟨?_, ?_, ?_⟩
  · unfold profileSkillsTerm sharedSkillList
    rw [hnames]
    simp [List.filter_cons, hmem]
  · unfold profileSeniorityTerm
    rw [show cvExperienceCount cv = es.length from by simp [cvExperienceCount, hex]]
    simp [hsen, hlen]
  · unfold profileSeniorityTerm
    by_cases h5 : 5 ≤ cvExperienceCount cv' <;> cases hs : isSeniorRole p' <;>
      simp [h5, hs, Nat.lt_of_not_le, Nat.not_le.mpr, Nat.not_lt.mpr]

/-- C5 witness: the scenario evaluated on the concrete Kubernetes
profile and candidate. -/
theorem C5_kubernetes_and_seniority_witness :
    profileSkillsTerm kPerson kCv = 4/10 ∧ profileSeniorityTerm kPerson kCv = 2/10 ∧
    profileSeniorityTerm kPerson kCv =
      (if (5 ≤ cvExperienceCount kCv ∧ isSeniorRole kPerson = true)
          ∨ (cvExperienceCount kCv < 5 ∧ ¬ isSeniorRole kPerson = true)
       then 2/10 else 1/10) :=
  C5_kubernetes_and_seniority kCv kCv kPerson kPerson "technical"
    ["Kubernetes", "Docker"] (List.replicate 5 dummyExperience)
    rfl rfl (by decide) rfl (by decide) (by decide) rfl

/-- Every entry the experience loop produces comes from a line with at
least one year token, and its periods are the first and last year
tokens of that line. -/
theorem experienceEntries_years :
    ∀ lines : List (List Char), ∀ e ∈ experienceEntries lines,
      ∃ line ∈ lines, findYears line ≠ [] ∧
        e.start_date = (findYears line).headD 0 ∧
        e.end_date = (findYears line).getLastD 0 ∧
        e.duration_months = ((e.end_date : ℤ) - (e.start_date : ℤ)) * 12
  | [] => by simp [experienceEntries]
  | line :: rest => by
    intro e he
    rw [experienceEntries] at he
    by_cases hy : (findYears line).isEmpty = true
    · rw [if_pos hy] at he
      obtain ⟨l, hl, hprop⟩ := experienceEntries_years rest e he
      exact ⟨l, List.mem_cons_of_mem _ hl, hprop⟩
    · rw [if_neg hy] at he
      rcases List.mem_cons.mp he with rfl | he'
      · refine ⟨line, List.mem_cons_self _ _, ?_, rfl, rfl, rfl⟩
        simpa [List.isEmpty_iff] using hy
      · obtain ⟨l, hl, hprop⟩ := experienceEntries_years rest e he'
        exact ⟨l, List.mem_cons_of_mem _ hl, hprop⟩

/-- C6 counterexample: on the single line `Developer 2022 2019` the
code emits start 2022 and end 2019 (the first and last tokens in line
order) with duration −36, while the claim's earliest/latest reading
requires start 2019 ≤ end 2022 and duration 24. -/
theorem C6_counterexample :
    (extractExperience "Developer 2022 2019".data).map
        (fun e => (e.start_date, e.end_date, e.duration_months))
      = [(2022, 2019, (-36 : ℤ))] ∧ ¬(2022 ≤ 2019) := ⟨by decide, by decide⟩

/-- C6 (amended): every experience entry comes from a line with a year
token, its start/end periods are the first and last year tokens of the
line in order of appearance, its duration is
`(end_year − start_year) × 12`, and at most the first five qualifying
lines are kept. -/
theorem C6_experience_periods (text : List Char) :
    extractExperience text = (experienceEntries (splitLines text)).take 5 ∧
    ∀ e ∈ extractExperience text, ∃ line ∈ splitLines text,
      findYears line ≠ [] ∧
      e.start_date = (findYears line).headD 0 ∧
      e.end_date = (findYears line).getLastD 0 ∧
      e.duration_months = ((e.end_date : ℤ) - (e.start_date : ℤ)) * 12 := by
  refine ⟨rfl, ?_⟩
  intro e he
  exact experienceEntries_years _ e (List.mem_of_mem_take he)

/-- C6 witness: the amended statement evaluated on a concrete CV
text. -/
theorem C6_experience_periods_witness :
    (extractExperience c6text = (experienceEntries (splitLines c6text)).take 5) ∧
    (∃ line ∈ splitLines c6text, findYears line ≠ [] ∧
      ((extractExperience c6text).headD default).start_date = (findYears line).headD 0 ∧
      ((extractExperience c6text).headD default).end_date = (findYears line).getLastD 0 ∧
      ((extractExperience c6text).headD default).duration_months =
        ((((extractExperience c6text).headD default).end_date : ℤ)
          - (((extractExperience c6text).headD default).start_date : ℤ)) * 12) :=
  ⟨(C6_experience_periods c6text).1,
   (C6_experience_periods c6text).2 ((extractExperience c6text).headD default) (by decide)⟩

/-- C7 counterexample: with every candidate-company field absent the
claim forces a total score of 0, but the missing name and description
are rendered as the literal text `undefined` in the matched company
text, which a profile skill named `undefined` matches, so the skills
term contributes 0.3. -/
theorem C7_counterexample : calculateCompanyMatchScore undefCompany undefSkillCv ≠ 0 := by
  have h : calculateCompanyMatchScore undefCompany undefSkillCv = 3/10 := by
    unfold calculateCompanyMatchScore companyIndustryTerm companySkillsTerm
      companyLocationTerm companySizeTerm
    norm_num [show companyIndustryMatch undefCompany undefSkillCv = false from by decide,
      show (companyMatchingSkills undefCompany undefSkillCv).length = 1 from by decide,
      show (cvSkillNamesLower undefSkillCv).length = 1 from by decide,
      show companyLocFullMatch undefCompany undefSkillCv = false from by decide,
      show strTruthy undefCompany.location = false from by decide,
      show companySizePreferred undefCompany = false from by decide]
  rw [h]
  norm_num

/-- C7 (amended): the scoring functions are total on records with
absent fields, and an absent industry, location, size or skill set
contributes zero to its term; but an absent name/description (and
headline/current-company) is rendered as the literal text `undefined`
inside the matched text, and an absent title yields the non-senior
tier of the seniority term (0.2 or 0.1 by experience count) rather
than zero. -/
theorem C7_absent_fields (cv : CvData) (c c2 : Company) (p p2 : Person)
    (hci : c.industry = none) (hcl : c.location = none) (hcs : c.size = none)
    (hps : p.skills = none) (hpl : p.location = none) (hpr : p.current_role = none)
    (hcn : c2.name = none) (hcd : c2.description = none)
    (hph : p2.headline = none) (hpc : p2.current_company = none) :
    companyIndustryTerm c cv = 0 ∧ companyLocationTerm c cv = 0 ∧ companySizeTerm c = 0 ∧
    profileSkillsTerm p cv = 0 ∧ profileLocationTerm p cv = 0 ∧
    profileSeniorityTerm p cv = (if cvExperienceCount cv < 5 then 2/10 else 1/10) ∧
    companyText c2 = "undefined undefined".data ∧
    profileText p2 = "undefined undefined".data := by
  have hsen : isSeniorRole p = false := by
    unfold isSeniorRole
    rw [hpr]
    decide
  refine ⟨?_, ?_, ?_, ?_, ?_, ?_, ?_, ?_⟩
  · simp [companyIndustryTerm, companyIndustryMatch, hci]
  · have hfull : companyLocFullMatch c cv = false := by
      unfold companyLocFullMatch
      rw [hcl]
      cases cvLocation cv <;> simp
    simp [companyLocationTerm, hfull, hcl, strTruthy]
  · simp [companySizeTerm, companySizePreferred, hcs]
  · simp [profileSkillsTerm, sharedSkillList, personSkillsLower, hps, List.filter]
  · have hm : profileLocMatch p cv = false := by
      unfold profileLocMatch
      rw [hpl]
      cases cvLocation cv <;> simp [strTruthy]
    simp [profileLocationTerm, hm]
  · unfold profileSeniorityTerm
    rw [hsen]
    by_cases h5 : cvExperienceCount cv < 5 <;>
      simp [h5, Nat.not_lt.mp, Nat.le_of_lt, Nat.not_le.mpr]
  · unfold companyText jsStr
    rw [hcn, hcd]
    decide
  · unfold profileText jsStr
    rw [hph, hpc]
    decide

/-- C7 witness: the amended statement evaluated on all-absent candidate
records against the empty profile. -/
theorem C7_absent_fields_witness :
    companyIndustryTerm undefCompany emptyCv = 0 ∧
    companyLocationTerm undefCompany emptyCv = 0 ∧ companySizeTerm undefCompany = 0 ∧
    profileSkillsTerm undefPerson emptyCv = 0 ∧ profileLocationTerm undefPerson emptyCv = 0 ∧
    profileSeniorityTerm undefPerson emptyCv =
      (if cvExperienceCount emptyCv < 5 then 2/10 else 1/10) ∧
    companyText undefCompany = "undefined undefined".data ∧
    profileText undefPerson = "undefined undefined".data :=
  C7_absent_fields emptyCv undefCompany undefCompany undefPerson undefPerson
    rfl rfl rfl rfl rfl rfl rfl rfl rfl rfl

/-- Tagging a vocabulary word with a fixed category is injective. -/
theorem skillTag_injective (cat : String) :
    Function.Injective fun sk => ({ name := sk, category := cat } : Skill) := by
  intro a b h
  simpa using congrArg Skill.name h

/-- `extractSkills` never emits a duplicate record: both vocabularies
are duplicate-free and the two halves carry distinct categories. -/
theorem extractSkills_nodup (text : List Char) : (extractSkills text).Nodup := by
  unfold extractSkills
  rw [List.nodup_append]
  refine ⟨?_, ?_, ?_⟩
  · exact ((by decide : TECHNICAL_SKILLS.Nodup).filter _).map
      (skillTag_injective SKILL_CATEGORIES_TECHNICAL)
  · exact ((by decide : SOFT_SKILLS.Nodup).filter _).map
      (skillTag_injective SKILL_CATEGORIES_SOFT)
  · intro a haT haS
    obtain ⟨x, _, rfl⟩ := List.mem_map.mp haT
    obtain ⟨y, _, hxy⟩ := List.mem_map.mp haS
    have hcat : SKILL_CATEGORIES_SOFT = SKILL_CATEGORIES_TECHNICAL :=
      congrArg Skill.category hxy
    exact absurd hcat (by decide)

/-- The lowercased names of the extracted skills are duplicate-free
(both vocabularies are lowercase and mutually distinct). -/
theorem extractSkills_lower_nodup (text : List Char) :
    ((extractSkills text).map fun s => lowerL s.name.data).Nodup := by
  have hsub : List.Sublist ((extractSkills text).map fun s => lowerL s.name.data)
      ((TECHNICAL_SKILLS.map fun sk => lowerL sk.data)
        ++ (SOFT_SKILLS.map fun sk => lowerL sk.data)) := by
    unfold extractSkills
    rw [List.map_append, List.map_map, List.map_map]
    exact ((List.filter_sublist _).map _).append ((List.filter_sublist _).map _)
  exact (by decide : ((TECHNICAL_SKILLS.map fun sk => lowerL sk.data)
    ++ (SOFT_SKILLS.map fun sk => lowerL sk.data)).Nodup).sublist hsub

/-- C9: the extracted `skills` and `industries` lists and the
`shared_skills` computed when ranking an extracted profile contain no
duplicate entries. -/
theorem C9_no_duplicates (text : List Char) (p : Person) :
    (extractSkills text).Nodup ∧ (extractIndustries text).Nodup ∧
    (getSharedSkills p (cvDataOf (extractData text))).Nodup := by
  refine ⟨extractSkills_nodup text, ?_, ?_⟩
  · simp only [extractIndustries]
    exact (by decide : commonIndustries.Nodup).filter _
  · unfold getSharedSkills sharedSkillList
    have h : (cvSkillNamesLower (cvDataOf (extractData text))).Nodup :=
      extractSkills_lower_nodup text
    exact (h.filter _).sublist (List.take_sublist 5 _)

/-- C8: a null candidate list, a null profile, or an empty candidate
list makes both rankers return the empty list. -/
theorem C8_null_and_empty_inputs (cv : CvData) (cs : List Company) (ps : List Person) :
    rankCompanies none (some cv) = [] ∧ rankCompanies (some cs) none = [] ∧
    rankCompanies none none = [] ∧ rankCompanies (some []) (some cv) = [] ∧
    rankProfiles none (some cv) = [] ∧ rankProfiles (some ps) none = [] ∧
    rankProfiles none none = [] ∧ rankProfiles (some []) (some cv) = [] :=
  ⟨rfl, rfl, rfl, rfl, rfl, rfl, rfl, rfl⟩

/-- The empty needle is a substring of every string (JS
`s.includes('')` is always `true`). -/
theorem containsSub_nil (l : List Char) : containsSub [] l = true := by
  cases l <;> simp [containsSub, List.isPrefixOf]

/-- A non-empty string is truthy. -/
theorem strTruthy_some_of_ne {s : String} (h : s ≠ "") : strTruthy (some s) = true := by
  unfold strTruthy
  rw [Bool.not_eq_true']
  rw [Bool.eq_false_iff]
  intro he
  exact h ((String.isEmpty_iff s).mp he)

/-- C10 counterexample: with the CV location absent and the company
location present but equal to the empty string, the rationale flag
`location_match` is `true` yet the score's location term is 0, not the
0.1 the claim asserts for every non-null location string (the empty
string is falsy in the score branch but still `includes('')`). -/
theorem C10_counterexample :
    (getCompanyMatchingCriteria emptyLocCompany emptyCv).location_match = true ∧
    companyLocationTerm emptyLocCompany emptyCv = 0 ∧ (0 : ℚ) ≠ 1/10 := by
  refine ⟨by decide, ?_, by norm_num⟩
  simp [companyLocationTerm,
    show companyLocFullMatch emptyLocCompany emptyCv = false from by decide,
    show strTruthy emptyLocCompany.location = false from by decide]

/-- C10 (amended): `extractContactInfo` always leaves the profile
location null, and against such a profile every candidate company with
a non-null, non-empty location string gets `location_match = true`
(every string contains the empty string) while the location term earns
only the 0.1 partial credit, never the full 0.2. -/
theorem C10_location_flag_vs_term (text : List Char) (cv : CvData) (c : Company)
    (s : String) (hloc : cvLocation cv = none) (hc : c.location = some s)
    (hs : s ≠ "") :
    (extractContactInfo text).location = none ∧
    (getCompanyMatchingCriteria c cv).location_match = true ∧
    companyLocationTerm c cv = 1/10 := by
  refine ⟨rfl, ?_, ?_⟩
  · simp only [getCompanyMatchingCriteria, hc, hloc]
    exact containsSub_nil s.data
  · have hfull : companyLocFullMatch c cv = false := by
      unfold companyLocFullMatch
      rw [hloc]
      simp [strTruthy]
    unfold companyLocationTerm
    rw [hfull, hc, strTruthy_some_of_ne hs]
    simp

/-- C10 witness: the amended statement evaluated on a concrete text, an
extracted-style profile with no location, and a company located in
`SF`. -/
theorem C10_location_flag_vs_term_witness :
    (extractContactInfo "CV of Jane".data).location = none ∧
    (getCompanyMatchingCriteria sfCompany emptyCv).location_match = true ∧
    companyLocationTerm sfCompany emptyCv = 1/10 :=
  C10_location_flag_vs_term "CV of Jane".data emptyCv sfCompany "SF" rfl rfl (by decide)

end Jeager
